import Mathlib

/-!
Shallow embedding of the `sawtooth` concurrency limiter
(`src/sawtooth/sawtooth.py`) and proofs about it.

Modelling conventions:
* Python ints are `Int`, Python floats are `Rat` (exact arithmetic).
* `set` fields (`_flying`, `_ignored`) are `Finset String`.
* The `deque` of waiters is a `List String` used FIFO (append at the back,
  pop from the front); a waiter's completion future is modelled by the list
  of identifiers whose futures are fired, returned alongside the new state.
* `math.ceil` / `math.floor` are `Int.ceil` / `Int.floor` on `Rat`.
* `Sawtooth.__init__`, which raises `ValueError`, becomes a function into
  `Except String SawtoothState` carrying the exact message strings.
-/

set_option autoImplicit false

namespace Sawtooth

/-- Mirror of the `SawtoothConfig` dataclass.  Field meanings as in the
source; `starting_concurrency = none` means "use the default". -/
structure SawtoothConfig where
  max_concurrency : Int
  min_concurrency : Int
  step_size : Int
  backoff_factor : Rat
  starting_concurrency : Option Int
deriving DecidableEq, Repr

/-- Default field values of the `SawtoothConfig` dataclass. -/
def SawtoothConfig.default : SawtoothConfig :=
  { max_concurrency := 1000
    min_concurrency := 1
    step_size := 1
    backoff_factor := (95 : Rat) / 100
    starting_concurrency := none }

/-- Mutable state of a `Sawtooth` limiter: the fields `_flying`, `_ignored`,
`_sshthresh`, `_concurrency`, `_waiters` of the Python class, plus the
(immutable) configuration.  `concurrency` is kept as a `Rat` so that the
spec's "real number internally" reading is statable; the code only ever
stores `math.ceil` / `math.floor` results in it. -/
structure SawtoothState where
  config : SawtoothConfig
  flying : Finset String
  ignored : Finset String
  sshthresh : Int
  concurrency : Rat
  waiters : List String
deriving DecidableEq

/-- The `starting_concurrency` local of `Sawtooth.__init__`: the configured
value, or `math.floor((max_concurrency - min_concurrency) / 2)` when omitted. -/
def startingConcurrencyOf (config : SawtoothConfig) : Int :=
  match config.starting_concurrency with
  | some s => s
  | none => ⌊((config.max_concurrency : Rat) - (config.min_concurrency : Rat)) / 2⌋

/-- Mirror of `Sawtooth.__init__` (the guarded resource itself is irrelevant
to the limiter state and is dropped). -/
def sawtoothInit (config : SawtoothConfig) : Except String SawtoothState :=
  let starting_concurrency := startingConcurrencyOf config
  if starting_concurrency > config.max_concurrency
      ∨ starting_concurrency < config.min_concurrency then
    .error "Starting concurrency needs to be between minimum and maximum concurrency"
  else if config.min_concurrency ≤ 0 then
    .error "Minimum concurrency needs to be greater than 0"
  else if config.min_concurrency ≥ config.max_concurrency then
    .error "Minimum concurrency needs greater than maximum concurrency"
  else if config.backoff_factor ≥ 1 ∨ config.backoff_factor ≤ 0 then
    .error "Backoff must have a value between 0 and 1 (exclusive)"
  else
    .ok { config := config
          flying := ∅
          ignored := ∅
          sshthresh := config.max_concurrency
          concurrency := (starting_concurrency : Rat)
          waiters := [] }

/-- The `for _ in range(num_to_release)` loop body of
`Sawtooth._release_waiters`: pop the leftmost waiter, add it to `flying`,
fire its future (recorded in the accumulator). -/
def releaseWaitersLoop : Nat → SawtoothState → List String → SawtoothState × List String
  | 0, s, acc => (s, acc.reverse)
  | Nat.succ n, s, acc =>
    match s.waiters with
    | [] => (s, acc.reverse)
    | request_id :: rest =>
      releaseWaitersLoop n
        { s with waiters := rest, flying := insert request_id s.flying }
        (request_id :: acc)

/-- The `num_to_release` local of `Sawtooth._release_waiters`:
`min(len(self._waiters), max(0, self._concurrency - len(self._flying)))`.
The bound is an `int` in the source because `_concurrency` always holds an
integral value (proved below as part of the reachable-state invariant); the
`Int.floor` realises that int-valued loop bound. -/
def numToRelease (s : SawtoothState) : Nat :=
  min s.waiters.length ⌊max 0 (s.concurrency - (s.flying.card : Rat))⌋.toNat

/-- Mirror of `Sawtooth._release_waiters`: run the pop-and-admit loop
`num_to_release` times.  Returns the new state and the identifiers whose
futures were fired, in FIFO order. -/
def releaseWaiters (s : SawtoothState) : SawtoothState × List String :=
  releaseWaitersLoop (numToRelease s) s []

/-- Mirror of `Sawtooth._maybe_increase_concurrency`. -/
def maybeIncreaseConcurrency (s : SawtoothState) : SawtoothState :=
  let step_size : Rat := (s.config.step_size : Rat)
  let num_flying : Rat := (s.flying.card : Rat)
  let new_concurrency : Int :=
    ⌈if num_flying < (s.sshthresh : Rat) then
        max s.concurrency
          (min (num_flying + step_size + 1) (s.concurrency + step_size))
      else
        max s.concurrency
          (min (num_flying + step_size + 1)
            (s.concurrency + step_size / s.concurrency))⌉
  { s with concurrency :=
      ((⌈min (new_concurrency : Rat) (s.config.max_concurrency : Rat)⌉ : Int) : Rat) }

/-- Mirror of `Sawtooth._maybe_reduce_concurrency`. -/
def maybeReduceConcurrency (s : SawtoothState) : SawtoothState :=
  let t : Int :=
    ⌊max (s.config.min_concurrency : Rat) (s.concurrency * s.config.backoff_factor)⌋
  { s with sshthresh := t, concurrency := (t : Rat), ignored := s.flying }

/-- Mirror of `Sawtooth.acquire`.  The `Bool` is `true` when the caller was
admitted immediately (the `else` branch of the source) and `false` when it
was appended to `_waiters` and suspends on its future. -/
def acquire (s : SawtoothState) (request_id : String) : SawtoothState × Bool :=
  if (s.flying.card : Rat) ≥ s.concurrency then
    ({ s with waiters := s.waiters ++ [request_id] }, false)
  else
    ({ s with flying := insert request_id s.flying }, true)

/-- Steps 1 and 2 of `Sawtooth.release`: flying removal, adjustment, and the
debounce-set removal — everything before the `self._release_waiters()` call. -/
def releaseAdjust (s : SawtoothState) (request_id : String) (backpressure : Bool) :
    SawtoothState :=
  let s1 :=
    if request_id ∈ s.flying then
      let sRemoved := { s with flying := s.flying.erase request_id }
      if backpressure then
        if request_id ∉ s.ignored then maybeReduceConcurrency sRemoved else sRemoved
      else
        maybeIncreaseConcurrency sRemoved
    else s
  if request_id ∈ s1.ignored then { s1 with ignored := s1.ignored.erase request_id }
  else s1

/-- Mirror of `Sawtooth.release`: adjust, then promote waiters.  Returns the
new state and the identifiers whose futures were fired. -/
def release (s : SawtoothState) (request_id : String) (backpressure : Bool) :
    SawtoothState × List String :=
  releaseWaiters (releaseAdjust s request_id backpressure)

/-- How the body of an `async with sawtooth.resource()` scope exits: normal
completion, raising `SawtoothBackpressure`, or raising some other exception. -/
inductive ScopeOutcome where
  | normal
  | backpressure
  | raised (e : String)
deriving DecidableEq, Repr

/-- Mirror of `Sawtooth.resource`: acquire with the generated `request_id`,
run the scope, and in the `finally` clause release once, with
`backpressure := true` exactly when the scope raised `SawtoothBackpressure`
(which is swallowed by the `except` clause).  The last component is the
exception that propagates out of the context manager, if any.  `none` is
returned for the whole call when the acquire suspends (the scope has not
run yet; the limiter state at that instant is the appended-waiter state). -/
def resourceRun (s : SawtoothState) (request_id : String) (outcome : ScopeOutcome) :
    Option (SawtoothState × List String × Option String) :=
  let acq := acquire s request_id
  if acq.2 then
    let backpressure : Bool :=
      match outcome with
      | ScopeOutcome.backpressure => true
      | _ => false
    let propagated : Option String :=
      match outcome with
      | ScopeOutcome.raised e => some e
      | _ => none
    let rel := release acq.1 request_id backpressure
    some (rel.1, rel.2, propagated)
  else
    none

/-- A single limiter operation, as driven by callers. -/
inductive Op where
  | acq (request_id : String)
  | rel (request_id : String) (backpressure : Bool)
deriving DecidableEq, Repr

/-- Apply one operation to the state (discarding the resource handle /
fired futures, which do not feed back into the state). -/
def applyOp (s : SawtoothState) : Op → SawtoothState
  | Op.acq request_id => (acquire s request_id).1
  | Op.rel request_id backpressure => (release s request_id backpressure).1

/-- Run a sequence of operations from a state. -/
def run : SawtoothState → List Op → SawtoothState
  | s, [] => s
  | s, op :: rest => run (applyOp s op) rest

/-- The documented precondition on callers: an `acquire` uses an identifier
that is unique among outstanding (flying or waiting) identifiers; `release`
may be called with anything (the source silently no-ops on unknown ids). -/
def opOk (s : SawtoothState) : Op → Bool
  | Op.acq request_id =>
    decide (request_id ∉ s.flying) && decide (request_id ∉ s.waiters)
  | Op.rel _ _ => true

/-- All operations of the sequence respect the caller precondition along the
trace. -/
def opsOk : SawtoothState → List Op → Bool
  | _, [] => true
  | s, op :: rest => opOk s op && opsOk (applyOp s op) rest

/-- The configuration restrictions enforced by `Sawtooth.__init__`. -/
def ValidConfig (c : SawtoothConfig) : Prop :=
  0 < c.min_concurrency ∧ c.min_concurrency < c.max_concurrency ∧
    0 < c.backoff_factor ∧ c.backoff_factor < 1

/-- The concurrency limit stays clamped to `[min_concurrency, max_concurrency]`. -/
def Clamped (s : SawtoothState) : Prop :=
  (s.config.min_concurrency : Rat) ≤ s.concurrency
    ∧ s.concurrency ≤ (s.config.max_concurrency : Rat)

/-- The concurrency limit holds an exact integer (the source only ever stores
`math.ceil` / `math.floor` results in `_concurrency`). -/
def Integral (s : SawtoothState) : Prop :=
  ∃ k : Int, s.concurrency = (k : Rat)

/-- Invariant preserved by every operation, well-behaved caller or not. -/
def BaseInv (s : SawtoothState) : Prop :=
  ValidConfig s.config ∧ Clamped s ∧ Integral s

/-- Invariant on the waiter queue, preserved as long as callers respect the
unique-identifier precondition: no duplicate waiters, waiters are not flying,
and a queued waiter never coexists with free capacity. -/
def QueueInv (s : SawtoothState) : Prop :=
  s.waiters.Nodup ∧ (∀ w ∈ s.waiters, w ∉ s.flying)
    ∧ (s.waiters ≠ [] → s.concurrency ≤ (s.flying.card : Rat))

/-- Conjunction of the two invariants. -/
def FullInv (s : SawtoothState) : Prop :=
  BaseInv s ∧ QueueInv s

/-- A small valid configuration used by the concrete witnesses below. -/
def cfgW : SawtoothConfig :=
  { max_concurrency := 10
    min_concurrency := 1
    step_size := 1
    backoff_factor := mkRat 1 2
    starting_concurrency := some 5 }

/-- The state `sawtoothInit cfgW` produces. -/
def s0W : SawtoothState :=
  { config := cfgW, flying := ∅, ignored := ∅,
    sshthresh := 10, concurrency := 5, waiters := [] }

/-- Witness state for the slow-start increase: six identifiers in flight. -/
def sW1 : SawtoothState :=
  { config := cfgW, flying := {"a", "b", "c", "d", "e", "f"}, ignored := ∅,
    sshthresh := 10, concurrency := 5, waiters := [] }

/-- Witness state for the backpressure reduction: two identifiers in flight. -/
def sW2 : SawtoothState :=
  { config := cfgW, flying := {"a", "b"}, ignored := ∅,
    sshthresh := 10, concurrency := 6, waiters := [] }

/-- Witness state for the debounce branch: `"b"` flying and ignored. -/
def sW3 : SawtoothState :=
  { config := cfgW, flying := {"b"}, ignored := {"b"},
    sshthresh := 5, concurrency := 3, waiters := [] }

/-- Witness state for waiter promotion: capacity 3, one flying, three queued. -/
def sW5 : SawtoothState :=
  { config := cfgW, flying := {"a"}, ignored := ∅,
    sshthresh := 10, concurrency := 3, waiters := ["w1", "w2", "w3"] }

/-- The configuration of the spec's test 5 (decrease and debounce scenario). -/
def testConfig5 : SawtoothConfig :=
  { max_concurrency := 10
    min_concurrency := 1
    step_size := 1
    backoff_factor := mkRat 1 2
    starting_concurrency := some 6 }

/-- A configuration whose limiter starts at concurrency 1 (witness for the
queued-waiter invariant). -/
def cfgW10 : SawtoothConfig :=
  { max_concurrency := 10
    min_concurrency := 1
    step_size := 1
    backoff_factor := mkRat 1 2
    starting_concurrency := some 1 }

/-- The state `sawtoothInit cfgW10` produces. -/
def s0W10 : SawtoothState :=
  { config := cfgW10, flying := ∅, ignored := ∅,
    sshthresh := 10, concurrency := 1, waiters := [] }

/-- Witness state in the congestion-avoidance regime (`|flying| ≥ sshthresh`)
with concurrency 3: there the increase candidate is the fraction `3 + 1/3`. -/
def sFr : SawtoothState :=
  { config := cfgW, flying := {"a", "b", "c", "d", "e"}, ignored := ∅,
    sshthresh := 2, concurrency := 3, waiters := [] }

/-- Membership after admitting a list of identifiers one by one. -/
theorem mem_foldl_insert (l : List String) (f : Finset String) (x : String) :
    (x ∈ l.foldl (fun t i => insert i t) f) ↔ x ∈ l ∨ x ∈ f := by
  induction l generalizing f with
  | nil => simp
  | cons a rest ih =>
    rw [List.foldl_cons, ih]
    simp only [List.mem_cons, Finset.mem_insert]
    tauto

/-- Admitting a duplicate-free list of fresh identifiers grows `flying` by
exactly its length. -/
theorem card_foldl_insert (l : List String) (f : Finset String)
    (hn : l.Nodup) (hd : ∀ x ∈ l, x ∉ f) :
    (l.foldl (fun t i => insert i t) f).card = f.card + l.length := by
  induction l generalizing f with
  | nil => simp
  | cons a rest ih =>
    have ha : a ∉ f := hd a (List.mem_cons_self a rest)
    have hrest : ∀ x ∈ rest, x ∉ insert a f := by
      intro x hx
      have hxa : x ≠ a := by
        intro hcontra
        exact (List.nodup_cons.mp hn).1 (hcontra ▸ hx)
      simp [Finset.mem_insert, hxa, hd x (List.mem_cons_of_mem a hx)]
    rw [List.foldl_cons, ih (insert a f) (List.nodup_cons.mp hn).2 hrest,
      Finset.card_insert_of_not_mem ha]
    simp [List.length_cons]
    omega

/-- Unfolding of the pop-and-admit loop: it takes the first `n` waiters (when
`n` is within range), admits them in order, and reports them in FIFO order. -/
theorem releaseWaitersLoop_spec (n : Nat) :
    ∀ (s : SawtoothState) (acc : List String), n ≤ s.waiters.length →
      releaseWaitersLoop n s acc =
        ({ s with waiters := s.waiters.drop n,
                  flying := (s.waiters.take n).foldl (fun t i => insert i t) s.flying },
         acc.reverse ++ s.waiters.take n) := by
  induction n with
  | zero =>
    intro s acc _
    simp [releaseWaitersLoop]
  | succ n ih =>
    rintro ⟨cfg, fl, ig, ssh, conc, ws⟩ acc h
    cases ws with
    | nil => simp at h
    | cons a rest =>
      simp only [releaseWaitersLoop]
      rw [ih _ (a :: acc) (by simpa using h)]
      simp [List.reverse_cons]

/-- Closed form of `_release_waiters`: the first `numToRelease` waiters move
from the front of the queue into `flying`, and exactly they are fired. -/
theorem releaseWaiters_eq (s : SawtoothState) :
    releaseWaiters s =
      ({ s with waiters := s.waiters.drop (numToRelease s),
                flying := (s.waiters.take (numToRelease s)).foldl
                  (fun t i => insert i t) s.flying },
       s.waiters.take (numToRelease s)) := by
  have h : numToRelease s ≤ s.waiters.length := Nat.min_le_left _ _
  simpa using releaseWaitersLoop_spec (numToRelease s) s [] h

/-- Promotion never touches the controller fields. -/
theorem releaseWaiters_proj (s : SawtoothState) :
    (releaseWaiters s).1.config = s.config
      ∧ (releaseWaiters s).1.concurrency = s.concurrency
      ∧ (releaseWaiters s).1.sshthresh = s.sshthresh
      ∧ (releaseWaiters s).1.ignored = s.ignored := by
  rw [releaseWaiters_eq]
  exact ⟨rfl, rfl, rfl, rfl⟩

/-- The adjustment steps of `release` never touch the waiter queue or the
configuration, and can only shrink `flying`. -/
theorem releaseAdjust_proj (s : SawtoothState) (request_id : String) (bp : Bool) :
    (releaseAdjust s request_id bp).waiters = s.waiters
      ∧ (releaseAdjust s request_id bp).config = s.config
      ∧ (releaseAdjust s request_id bp).flying ⊆ s.flying := by
  unfold releaseAdjust
  dsimp only
  split_ifs <;>
    exact ⟨rfl, rfl, by first | exact Finset.erase_subset _ _ | exact subset_rfl⟩

/-- Transport of `BaseInv` across states agreeing on configuration and
concurrency. -/
theorem baseInv_transfer {s t : SawtoothState} (hcfg : t.config = s.config)
    (hconc : t.concurrency = s.concurrency) (h : BaseInv s) : BaseInv t := by
  unfold BaseInv ValidConfig Clamped Integral at h ⊢
  rw [hcfg, hconc]
  exact h

/-- Ceiling a value before clamping it to an integer bound commutes with
ceiling after clamping: `⌈min(⌈b⌉, M)⌉ = ⌈min(b, M)⌉` for integer `M`. -/
theorem ceil_min_cast (b : Rat) (M : Int) :
    ⌈min ((⌈b⌉ : Int) : Rat) ((M : Int) : Rat)⌉ = ⌈min b ((M : Int) : Rat)⌉ := by
  rcases le_total b ((M : Int) : Rat) with h | h
  · have hc : ⌈b⌉ ≤ M := Int.ceil_le.mpr h
    rw [min_eq_left h, min_eq_left (by exact_mod_cast hc), Int.ceil_intCast]
  · have hcast : ((M : Int) : Rat) ≤ ((⌈b⌉ : Int) : Rat) := le_trans h (Int.le_ceil b)
    rw [min_eq_right h, min_eq_right hcast]

/-- The stored result of `_maybe_increase_concurrency` is the single-ceiling
formula the spec states: `ceil(min(candidate, max_concurrency))`. -/
theorem maybeIncreaseConcurrency_concurrency (s : SawtoothState) :
    (maybeIncreaseConcurrency s).concurrency =
      ((⌈min (if (s.flying.card : Rat) < (s.sshthresh : Rat) then
            max s.concurrency
              (min ((s.flying.card : Rat) + (s.config.step_size : Rat) + 1)
                (s.concurrency + (s.config.step_size : Rat)))
          else
            max s.concurrency
              (min ((s.flying.card : Rat) + (s.config.step_size : Rat) + 1)
                (s.concurrency + (s.config.step_size : Rat) / s.concurrency)))
        ((s.config.max_concurrency : Int) : Rat)⌉ : Int) : Rat) := by
  unfold maybeIncreaseConcurrency
  dsimp only
  rw [ceil_min_cast]

/-- An integer-valued quantity below both `b` and `M` stays below
`⌈min(b, M)⌉`. -/
theorem le_ceil_min_of_le (c : Rat) (k M : Int) (b : Rat)
    (hk : c = (k : Rat)) (hcb : c ≤ b) (hcM : c ≤ ((M : Int) : Rat)) :
    c ≤ ((⌈min b ((M : Int) : Rat)⌉ : Int) : Rat) := by
  subst hk
  have h1 : ((k : Int) : Rat) ≤ min b ((M : Int) : Rat) := le_min hcb hcM
  have h2 : k ≤ ⌈min b ((M : Int) : Rat)⌉ := by
    have := Int.ceil_mono h1
    rwa [Int.ceil_intCast] at this
  exact_mod_cast h2

/-- The clamped ceiling stays below the integer bound `M`. -/
theorem ceil_min_le (b : Rat) (M : Int) :
    ((⌈min b ((M : Int) : Rat)⌉ : Int) : Rat) ≤ ((M : Int) : Rat) := by
  have h : ⌈min b ((M : Int) : Rat)⌉ ≤ M := by
    have := Int.ceil_mono (min_le_right b ((M : Int) : Rat))
    rwa [Int.ceil_intCast] at this
  exact_mod_cast h

/-- In both regimes the increase candidate is floored at the current
concurrency. -/
theorem le_increase_candidate (s : SawtoothState) :
    s.concurrency ≤
      (if (s.flying.card : Rat) < (s.sshthresh : Rat) then
        max s.concurrency
          (min ((s.flying.card : Rat) + (s.config.step_size : Rat) + 1)
            (s.concurrency + (s.config.step_size : Rat)))
      else
        max s.concurrency
          (min ((s.flying.card : Rat) + (s.config.step_size : Rat) + 1)
            (s.concurrency + (s.config.step_size : Rat) / s.concurrency))) := by
  split <;> exact le_max_left _ _

/-- A successful release never lowers the concurrency limit (on integral,
clamped states). -/
theorem le_maybeIncreaseConcurrency (s : SawtoothState) (k : Int)
    (hk : s.concurrency = (k : Rat))
    (hle : s.concurrency ≤ (s.config.max_concurrency : Rat)) :
    s.concurrency ≤ (maybeIncreaseConcurrency s).concurrency := by
  rw [maybeIncreaseConcurrency_concurrency]
  exact le_ceil_min_of_le s.concurrency k s.config.max_concurrency _ hk
    (le_increase_candidate s) hle

/-- `_maybe_increase_concurrency` preserves the base invariant. -/
theorem baseInv_maybeIncrease (s : SawtoothState) (h : BaseInv s) :
    BaseInv (maybeIncreaseConcurrency s) := by
  obtain ⟨hv, ⟨hlo, hhi⟩, k, hk⟩ := h
  refine ⟨hv, ⟨?_, ?_⟩, ?_⟩
  · show (s.config.min_concurrency : Rat) ≤ _
    rw [maybeIncreaseConcurrency_concurrency]
    refine le_ceil_min_of_le _ s.config.min_concurrency _ _ rfl
      (le_trans hlo (le_increase_candidate s)) ?_
    exact_mod_cast le_of_lt hv.2.1
  · show (maybeIncreaseConcurrency s).concurrency ≤ (s.config.max_concurrency : Rat)
    rw [maybeIncreaseConcurrency_concurrency]
    exact ceil_min_le _ _
  · exact ⟨⌈min ((⌈_⌉ : Int) : Rat) ((s.config.max_concurrency : Int) : Rat)⌉, rfl⟩

/-- `_maybe_reduce_concurrency` keeps the limit inside the clamp and integral. -/
theorem baseInv_maybeReduce (s : SawtoothState) (h : BaseInv s) :
    BaseInv (maybeReduceConcurrency s) := by
  obtain ⟨hv, ⟨hlo, hhi⟩, k, hk⟩ := h
  obtain ⟨hmin, hminmax, hb0, hb1⟩ := hv
  have hconc0 : (0 : Rat) ≤ s.concurrency :=
    le_trans (by exact_mod_cast le_of_lt hmin) hlo
  have hprod : s.concurrency * s.config.backoff_factor ≤ s.concurrency :=
    mul_le_of_le_one_right hconc0 (le_of_lt hb1)
  refine ⟨⟨hmin, hminmax, hb0, hb1⟩, ⟨?_, ?_⟩, ?_⟩
  · show (s.config.min_concurrency : Rat) ≤
      ((⌊max (s.config.min_concurrency : Rat)
        (s.concurrency * s.config.backoff_factor)⌋ : Int) : Rat)
    have h1 : s.config.min_concurrency ≤
        ⌊max (s.config.min_concurrency : Rat) (s.concurrency * s.config.backoff_factor)⌋ := by
      have := Int.floor_mono (le_max_left (s.config.min_concurrency : Rat)
        (s.concurrency * s.config.backoff_factor))
      rwa [Int.floor_intCast] at this
    exact_mod_cast h1
  · show ((⌊max (s.config.min_concurrency : Rat)
        (s.concurrency * s.config.backoff_factor)⌋ : Int) : Rat) ≤
      (s.config.max_concurrency : Rat)
    have hmaxle : max (s.config.min_concurrency : Rat)
        (s.concurrency * s.config.backoff_factor) ≤ (s.config.max_concurrency : Rat) :=
      max_le (by exact_mod_cast le_of_lt hminmax) (le_trans hprod hhi)
    have h1 : ⌊max (s.config.min_concurrency : Rat)
        (s.concurrency * s.config.backoff_factor)⌋ ≤ s.config.max_concurrency := by
      have := Int.floor_mono hmaxle
      rwa [Int.floor_intCast] at this
    exact_mod_cast h1
  · exact ⟨⌊max (s.config.min_concurrency : Rat)
      (s.concurrency * s.config.backoff_factor)⌋, rfl⟩

/-- The adjustment phase of `release` preserves the base invariant. -/
theorem baseInv_releaseAdjust (s : SawtoothState) (request_id : String) (bp : Bool)
    (h : BaseInv s) : BaseInv (releaseAdjust s request_id bp) := by
  have key : ∀ t : SawtoothState, BaseInv t →
      BaseInv (if request_id ∈ t.ignored then
        { t with ignored := t.ignored.erase request_id } else t) := by
    intro t ht
    split_ifs
    · exact baseInv_transfer rfl rfl ht
    · exact ht
  unfold releaseAdjust
  dsimp only
  refine key _ ?_
  split_ifs
  · exact baseInv_transfer rfl rfl h
  · exact baseInv_maybeReduce _ (baseInv_transfer rfl rfl h)
  · exact baseInv_maybeIncrease _ (baseInv_transfer rfl rfl h)
  · exact h

/-- `release` preserves the base invariant. -/
theorem baseInv_release (s : SawtoothState) (request_id : String) (bp : Bool)
    (h : BaseInv s) : BaseInv (release s request_id bp).1 := by
  rw [release, releaseWaiters_eq]
  exact baseInv_transfer rfl rfl (baseInv_releaseAdjust s request_id bp h)

/-- `acquire` preserves the base invariant. -/
theorem baseInv_acquire (s : SawtoothState) (request_id : String)
    (h : BaseInv s) : BaseInv (acquire s request_id).1 := by
  unfold acquire
  split_ifs <;> exact baseInv_transfer rfl rfl h

/-- Any single operation preserves the base invariant. -/
theorem baseInv_applyOp (s : SawtoothState) (op : Op) (h : BaseInv s) :
    BaseInv (applyOp s op) := by
  cases op with
  | acq request_id => exact baseInv_acquire s request_id h
  | rel request_id bp => exact baseInv_release s request_id bp h

/-- Any operation sequence preserves the base invariant. -/
theorem baseInv_run (s : SawtoothState) (ops : List Op) (h : BaseInv s) :
    BaseInv (run s ops) := by
  induction ops generalizing s with
  | nil => exact h
  | cons op rest ih => exact ih (applyOp s op) (baseInv_applyOp s op h)

/-- No operation changes the configuration. -/
theorem applyOp_config (s : SawtoothState) (op : Op) :
    (applyOp s op).config = s.config := by
  cases op with
  | acq request_id =>
    show (acquire s request_id).1.config = s.config
    unfold acquire
    split_ifs <;> rfl
  | rel request_id bp =>
    show (release s request_id bp).1.config = s.config
    rw [release, releaseWaiters_eq]
    exact (releaseAdjust_proj s request_id bp).2.1

/-- No operation sequence changes the configuration. -/
theorem run_config (s : SawtoothState) (ops : List Op) :
    (run s ops).config = s.config := by
  induction ops generalizing s with
  | nil => rfl
  | cons op rest ih => rw [run, ih, applyOp_config]

/-- Everything `__init__` guarantees about a successfully constructed
limiter: field values, configuration validity, and the base invariant. -/
theorem sawtoothInit_ok (cfg : SawtoothConfig) (s0 : SawtoothState)
    (h : sawtoothInit cfg = .ok s0) :
    s0.config = cfg ∧ BaseInv s0 ∧ s0.flying = ∅ ∧ s0.ignored = ∅
      ∧ s0.waiters = [] ∧ s0.sshthresh = cfg.max_concurrency
      ∧ s0.concurrency = ((startingConcurrencyOf cfg : Int) : Rat) := by
  unfold sawtoothInit at h
  dsimp only at h
  split_ifs at h with h1 h2 h3 h4
  simp only [Except.ok.injEq] at h
  subst h
  push_neg at h1 h2 h3 h4
  refine ⟨rfl, ⟨⟨h2, h3, h4.2, h4.1⟩, ⟨?_, ?_⟩, startingConcurrencyOf cfg, rfl⟩,
    rfl, rfl, rfl, rfl, rfl⟩
  · show (cfg.min_concurrency : Rat) ≤ ((startingConcurrencyOf cfg : Int) : Rat)
    exact_mod_cast h1.2
  · show ((startingConcurrencyOf cfg : Int) : Rat) ≤ (cfg.max_concurrency : Rat)
    exact_mod_cast h1.1

/-- `acquire` with a fresh identifier preserves the full invariant. -/
theorem fullInv_acquire (s : SawtoothState) (request_id : String)
    (h : FullInv s) (hf : request_id ∉ s.flying) (hw : request_id ∉ s.waiters) :
    FullInv (acquire s request_id).1 := by
  obtain ⟨hbase, hnd, hdisj, hadm⟩ := h
  unfold acquire
  split_ifs with hge
  · refine ⟨baseInv_transfer rfl rfl hbase, ?_, ?_, ?_⟩
    · show (s.waiters ++ [request_id]).Nodup
      simp [List.nodup_append, hnd, hw]
    · intro w hwmem
      show w ∉ s.flying
      rcases List.mem_append.mp hwmem with h1 | h1
      · exact hdisj w h1
      · simp only [List.mem_singleton] at h1
        exact h1 ▸ hf
    · intro _
      exact hge
  · have hwe : s.waiters = [] := by
      by_contra hne
      exact hge (hadm hne)
    refine ⟨baseInv_transfer rfl rfl hbase, hnd, ?_, ?_⟩
    · intro w hwmem
      rw [hwe] at hwmem
      exact absurd hwmem (List.not_mem_nil w)
    · intro hne
      exact absurd hwe hne

/-- `release` preserves the full invariant: in particular, after promotion a
nonempty waiter queue implies no free capacity. -/
theorem fullInv_release (s : SawtoothState) (request_id : String) (bp : Bool)
    (h : FullInv s) : FullInv (release s request_id bp).1 := by
  obtain ⟨hbase, hnd, hdisj, hadm⟩ := h
  obtain ⟨hw2, hcfg2, hfl2⟩ := releaseAdjust_proj s request_id bp
  rw [release, releaseWaiters_eq]
  set s2 := releaseAdjust s request_id bp with hs2
  set k := numToRelease s2 with hk
  have hbase2 : BaseInv s2 := baseInv_releaseAdjust s request_id bp hbase
  have hnd2 : s2.waiters.Nodup := by rw [hw2]; exact hnd
  have hdisj2 : ∀ w ∈ s2.waiters, w ∉ s2.flying := by
    intro w hwmem hx
    rw [hw2] at hwmem
    exact hdisj w hwmem (hfl2 hx)
  have htdnd : ((s2.waiters.take k).Nodup ∧ (s2.waiters.drop k).Nodup)
      ∧ List.Disjoint (s2.waiters.take k) (s2.waiters.drop k) := by
    have hsplit := List.take_append_drop k s2.waiters
    have := hsplit ▸ hnd2
    rw [List.nodup_append] at this
    exact ⟨⟨this.1, this.2.1⟩, this.2.2⟩
  have htake_fresh : ∀ x ∈ s2.waiters.take k, x ∉ s2.flying := fun x hx =>
    hdisj2 x ((List.take_sublist k s2.waiters).subset hx)
  refine ⟨baseInv_transfer rfl rfl hbase2, htdnd.1.2, ?_, ?_⟩
  · intro w hwmem
    show w ∉ (s2.waiters.take k).foldl (fun t i => insert i t) s2.flying
    rw [mem_foldl_insert]
    rintro (hmem | hmem)
    · exact htdnd.2 hmem hwmem
    · exact hdisj2 w ((List.drop_sublist k s2.waiters).subset hwmem) hmem
  · intro hne
    have hklen : k < s2.waiters.length := by
      by_contra hge
      push_neg at hge
      exact hne (List.drop_eq_nil_of_le hge)
    obtain ⟨m, hm⟩ := hbase2.2.2
    have hfloor : ⌊max 0 (s2.concurrency - (s2.flying.card : Rat))⌋
        = max 0 (m - (s2.flying.card : Int)) := by
      rw [hm]
      rw [show max (0 : Rat) ((m : Rat) - (s2.flying.card : Rat))
          = ((max 0 (m - (s2.flying.card : Int)) : Int) : Rat) by push_cast; rfl]
      exact Int.floor_intCast _
    have hkeq : k = (max 0 (m - (s2.flying.card : Int))).toNat := by
      have hkmin : k = min s2.waiters.length (max 0 (m - (s2.flying.card : Int))).toNat := by
        rw [hk]
        unfold numToRelease
        rw [hfloor]
      rcases min_choice s2.waiters.length (max 0 (m - (s2.flying.card : Int))).toNat
        with hmin | hmin
      · rw [hmin] at hkmin
        omega
      · rw [hmin] at hkmin
        exact hkmin
    have hk3 : (k : Int) = max 0 (m - (s2.flying.card : Int)) := by
      rw [hkeq]
      exact Int.toNat_of_nonneg (le_max_left 0 _)
    have hfin : m ≤ (s2.flying.card : Int) + (k : Int) := by
      have h1 : m - (s2.flying.card : Int) ≤ (k : Int) := hk3 ▸ le_max_right 0 _
      omega
    show s2.concurrency
        ≤ (((s2.waiters.take k).foldl (fun t i => insert i t) s2.flying).card : Rat)
    rw [card_foldl_insert _ _ htdnd.1.1 htake_fresh,
      List.length_take, Nat.min_eq_left (le_of_lt hklen), hm]
    exact_mod_cast hfin

/-- Any single well-formed operation preserves the full invariant. -/
theorem fullInv_applyOp (s : SawtoothState) (op : Op)
    (h : FullInv s) (hop : opOk s op = true) : FullInv (applyOp s op) := by
  cases op with
  | acq request_id =>
    simp only [opOk, Bool.and_eq_true, decide_eq_true_eq] at hop
    exact fullInv_acquire s request_id h hop.1 hop.2
  | rel request_id bp =>
    exact fullInv_release s request_id bp h

/-- Any well-formed operation sequence preserves the full invariant. -/
theorem fullInv_run (s : SawtoothState) (ops : List Op)
    (h : FullInv s) (hops : opsOk s ops = true) : FullInv (run s ops) := by
  induction ops generalizing s with
  | nil => exact h
  | cons op rest ih =>
    simp only [opsOk, Bool.and_eq_true] at hops
    exact ih (applyOp s op) (fullInv_applyOp s op h hops.1) hops.2

/-- A freshly constructed limiter satisfies the full invariant. -/
theorem fullInv_init (cfg : SawtoothConfig) (s0 : SawtoothState)
    (h : sawtoothInit cfg = .ok s0) : FullInv s0 := by
  obtain ⟨-, hbase, -, -, hwaiters, -, -⟩ := sawtoothInit_ok cfg s0 h
  refine ⟨hbase, ?_, ?_, ?_⟩
  · rw [hwaiters]; exact List.nodup_nil
  · intro w hwmem
    rw [hwaiters] at hwmem
    exact absurd hwmem (List.not_mem_nil w)
  · intro hne
    exact absurd hwaiters hne

/-- C4: for every validly constructed limiter and every sequence of
acquire/release operations, `concurrency` stays within
`[min_concurrency, max_concurrency]`. -/
theorem claim4_concurrency_clamped (cfg : SawtoothConfig) (s0 : SawtoothState)
    (h : sawtoothInit cfg = .ok s0) (ops : List Op) :
    (cfg.min_concurrency : Rat) ≤ (run s0 ops).concurrency
      ∧ (run s0 ops).concurrency ≤ (cfg.max_concurrency : Rat) := by
  obtain ⟨hcfg, hbase, -, -, -, -, -⟩ := sawtoothInit_ok cfg s0 h
  obtain ⟨-, ⟨hlo, hhi⟩, -⟩ := baseInv_run s0 ops hbase
  have hconf : (run s0 ops).config = cfg := by rw [run_config, hcfg]
  rw [hconf] at hlo hhi
  exact ⟨hlo, hhi⟩

/-- Witness for C4 at a concrete configuration and operation sequence
containing both a successful and a backpressure release. -/
theorem claim4_concurrency_clamped_witness :
    (cfgW.min_concurrency : Rat)
        ≤ (run s0W [Op.acq "a", Op.rel "a" false, Op.acq "b", Op.rel "b" true]).concurrency
      ∧ (run s0W [Op.acq "a", Op.rel "a" false, Op.acq "b", Op.rel "b" true]).concurrency
        ≤ (cfgW.max_concurrency : Rat) :=
  claim4_concurrency_clamped cfgW s0W (by with_unfolding_all rfl)
    [Op.acq "a", Op.rel "a" false, Op.acq "b", Op.rel "b" true]

/-- C9 counterexample: no valid configuration and operation sequence leaves a
non-integer value stored in `concurrency` — the claimed existential is false,
because `_concurrency` only ever receives `math.ceil` / `math.floor` results. -/
theorem claim9_counterexample :
    ¬ ∃ (cfg : SawtoothConfig) (s0 : SawtoothState) (ops : List Op),
      sawtoothInit cfg = .ok s0
        ∧ ∀ k : Int, (run s0 ops).concurrency ≠ (k : Rat) := by
  rintro ⟨cfg, s0, ops, hinit, hfrac⟩
  obtain ⟨-, hbase, -, -, -, -, -⟩ := sawtoothInit_ok cfg s0 hinit
  obtain ⟨-, -, k, hk⟩ := baseInv_run s0 ops hbase
  exact hfrac k hk

/-- C9 amended: the stored `concurrency` is an exact integer after every
operation sequence on a validly constructed limiter; fractional values
appear only transiently inside the congestion-avoidance increase formula
(`concurrency + step_size / concurrency`) before the ceiling is taken, as
the concrete state `sFr` shows (candidate `3 + 1/3`, stored result `4`). -/
theorem claim9_concurrency_integral :
    (∀ (cfg : SawtoothConfig) (s0 : SawtoothState) (ops : List Op),
        sawtoothInit cfg = .ok s0 → ∃ k : Int, (run s0 ops).concurrency = (k : Rat))
      ∧ (¬ ∃ k : Int,
          sFr.concurrency + (sFr.config.step_size : Rat) / sFr.concurrency = (k : Rat))
      ∧ (maybeIncreaseConcurrency sFr).concurrency = 4 := by
  refine ⟨?_, ?_, by with_unfolding_all decide⟩
  · intro cfg s0 ops hinit
    obtain ⟨-, hbase, -, -, -, -, -⟩ := sawtoothInit_ok cfg s0 hinit
    exact (baseInv_run s0 ops hbase).2.2
  · rintro ⟨k, hk⟩
    have hval : sFr.concurrency + (sFr.config.step_size : Rat) / sFr.concurrency
        = 10 / 3 := by norm_num [sFr, cfgW]
    rw [hval] at hk
    have h3 : (3 : Int) < k := by
      have : (3 : Rat) < (k : Rat) := by rw [← hk]; norm_num
      exact_mod_cast this
    have h4 : k < (4 : Int) := by
      have : (k : Rat) < (4 : Rat) := by rw [← hk]; norm_num
      exact_mod_cast this
    omega

/-- Witness for the integrality half of the amended C9 at a concrete
configuration and operation sequence. -/
theorem claim9_concurrency_integral_witness :
    ∃ k : Int,
      (run s0W [Op.acq "a", Op.rel "a" false]).concurrency = (k : Rat) :=
  claim9_concurrency_integral.1 cfgW s0W [Op.acq "a", Op.rel "a" false]
    (by with_unfolding_all rfl)

/-- C10: on any validly constructed limiter driven by precondition-respecting
callers, a nonempty waiter queue implies there is no free capacity slot
(`|flying| ≥ concurrency`) after every completed operation. -/
theorem claim10_no_free_slot_with_waiters (cfg : SawtoothConfig) (s0 : SawtoothState)
    (ops : List Op) (hinit : sawtoothInit cfg = .ok s0)
    (hops : opsOk s0 ops = true) (hne : (run s0 ops).waiters ≠ []) :
    (run s0 ops).concurrency ≤ ((run s0 ops).flying.card : Rat) :=
  (fullInv_run s0 ops (fullInv_init cfg s0 hinit) hops).2.2.2 hne

/-- Witness for C10: limiter at concurrency 1, one flying caller and one
queued waiter. -/
theorem claim10_no_free_slot_with_waiters_witness :
    (run s0W10 [Op.acq "a", Op.acq "b"]).concurrency
      ≤ ((run s0W10 [Op.acq "a", Op.acq "b"]).flying.card : Rat) :=
  claim10_no_free_slot_with_waiters cfgW10 s0W10 [Op.acq "a", Op.acq "b"]
    (by with_unfolding_all rfl) (by with_unfolding_all decide) (by with_unfolding_all decide)

/-- C1: a successful release of a flying identifier sets `concurrency` to the
spec's single-ceiling formula for the appropriate regime (slow start when
`|flying| < threshold` after removal, else congestion avoidance), and never
lowers it. -/
theorem claim1_success_release_formula (s : SawtoothState) (request_id : String)
    (hfly : request_id ∈ s.flying)
    (hint : ∃ k : Int, s.concurrency = (k : Rat))
    (hle : s.concurrency ≤ (s.config.max_concurrency : Rat)) :
    ((release s request_id false).1.concurrency =
      (if ((s.flying.erase request_id).card : Rat) < (s.sshthresh : Rat) then
        ((⌈min (max s.concurrency
            (min (((s.flying.erase request_id).card : Rat) + (s.config.step_size : Rat) + 1)
              (s.concurrency + (s.config.step_size : Rat))))
          ((s.config.max_concurrency : Int) : Rat)⌉ : Int) : Rat)
      else
        ((⌈min (max s.concurrency
            (min (((s.flying.erase request_id).card : Rat) + (s.config.step_size : Rat) + 1)
              (s.concurrency + (s.config.step_size : Rat) / s.concurrency)))
          ((s.config.max_concurrency : Int) : Rat)⌉ : Int) : Rat)))
    ∧ s.concurrency ≤ (release s request_id false).1.concurrency := by
  have hstep : (release s request_id false).1.concurrency
      = (maybeIncreaseConcurrency { s with flying := s.flying.erase request_id }).concurrency := by
    rw [release, releaseWaiters_eq]
    show (releaseAdjust s request_id false).concurrency = _
    unfold releaseAdjust
    dsimp only
    rw [if_pos hfly, if_neg (by simp : ¬(false = true))]
    split_ifs <;> rfl
  constructor
  · rw [hstep, maybeIncreaseConcurrency_concurrency]
    rw [apply_ite (fun b : Rat =>
      ((⌈min b ((s.config.max_concurrency : Int) : Rat)⌉ : Int) : Rat))]
  · obtain ⟨k, hk⟩ := hint
    rw [hstep]
    exact le_maybeIncreaseConcurrency { s with flying := s.flying.erase request_id } k hk hle

/-- Witness for C1: slow-start increase from concurrency 5 with six flying. -/
theorem claim1_success_release_formula_witness :
    (release sW1 "a" false).1.concurrency = 6
      ∧ sW1.concurrency ≤ (release sW1 "a" false).1.concurrency := by
  have h := claim1_success_release_formula sW1 "a" (by with_unfolding_all decide)
    ⟨5, by with_unfolding_all decide⟩ (by with_unfolding_all decide)
  exact ⟨h.1.trans (by with_unfolding_all decide), h.2⟩

/-- C2: a backpressure release of a flying, non-ignored identifier sets
`sshthresh` to `floor(max(min_concurrency, concurrency * backoff_factor))`,
stores the same value in `concurrency`, and replaces `ignored` with exactly
the post-removal contents of `flying`. -/
theorem claim2_backpressure_reduction (s : SawtoothState) (request_id : String)
    (hfly : request_id ∈ s.flying) (hig : request_id ∉ s.ignored) :
    (release s request_id true).1.sshthresh
        = ⌊max (s.config.min_concurrency : Rat) (s.concurrency * s.config.backoff_factor)⌋
      ∧ (release s request_id true).1.concurrency
        = ((⌊max (s.config.min_concurrency : Rat)
            (s.concurrency * s.config.backoff_factor)⌋ : Int) : Rat)
      ∧ (release s request_id true).1.ignored = s.flying.erase request_id := by
  have hstep : releaseAdjust s request_id true
      = maybeReduceConcurrency { s with flying := s.flying.erase request_id } := by
    unfold releaseAdjust
    dsimp only
    rw [if_pos hfly, if_pos rfl, if_pos hig]
    exact if_neg (Finset.not_mem_erase request_id s.flying)
  rw [release, releaseWaiters_eq, hstep]
  exact ⟨rfl, rfl, rfl⟩

/-- Witness for C2: reduction from concurrency 6 with backoff 1/2. -/
theorem claim2_backpressure_reduction_witness :
    (release sW2 "a" true).1.sshthresh = 3
      ∧ (release sW2 "a" true).1.concurrency = 3
      ∧ (release sW2 "a" true).1.ignored = {"b"} := by
  obtain ⟨h1, h2, h3⟩ := claim2_backpressure_reduction sW2 "a"
    (by with_unfolding_all decide) (by with_unfolding_all decide)
  exact ⟨h1.trans (by with_unfolding_all decide),
    h2.trans (by with_unfolding_all decide), h3.trans (by with_unfolding_all decide)⟩

/-- C3: a backpressure release of an ignored identifier performs no reduction
(`concurrency` and `sshthresh` unchanged), removes the identifier from
`ignored` and from `flying`; and in the spec's test-5 scenario the second
backpressure release leaves `concurrency` at 3. -/
theorem claim3_debounced_release (s : SawtoothState) (request_id : String)
    (hig : request_id ∈ s.ignored) (hw : request_id ∉ s.waiters) :
    ((release s request_id true).1.concurrency = s.concurrency
      ∧ (release s request_id true).1.sshthresh = s.sshthresh
      ∧ (release s request_id true).1.ignored = s.ignored.erase request_id
      ∧ request_id ∉ (release s request_id true).1.flying)
    ∧ (sawtoothInit testConfig5).toOption.map
        (fun s0 => (run s0 [Op.acq "req1", Op.acq "req2",
          Op.rel "req1" true, Op.rel "req2" true]).concurrency) = some 3 := by
  constructor
  · have hstep : releaseAdjust s request_id true
        = if request_id ∈ s.flying then
            { s with flying := s.flying.erase request_id,
                     ignored := s.ignored.erase request_id }
          else { s with ignored := s.ignored.erase request_id } := by
      unfold releaseAdjust
      dsimp only
      by_cases h1 : request_id ∈ s.flying
      · rw [if_pos h1, if_pos rfl, if_neg (not_not_intro hig), if_pos hig, if_pos h1]
      · rw [if_neg h1, if_pos hig, if_neg h1]
    rw [release, releaseWaiters_eq, hstep]
    by_cases h1 : request_id ∈ s.flying
    · rw [if_pos h1]
      refine ⟨rfl, rfl, rfl, ?_⟩
      show request_id ∉ List.foldl (fun t i => insert i t) _ _
      rw [mem_foldl_insert]
      rintro (hmem | hmem)
      · exact hw ((List.take_sublist _ _).subset hmem)
      · exact Finset.not_mem_erase request_id s.flying hmem
    · rw [if_neg h1]
      refine ⟨rfl, rfl, rfl, ?_⟩
      show request_id ∉ List.foldl (fun t i => insert i t) _ _
      rw [mem_foldl_insert]
      rintro (hmem | hmem)
      · exact hw ((List.take_sublist _ _).subset hmem)
      · exact h1 hmem
  · with_unfolding_all decide

/-- Witness for C3 at a concrete state with an ignored flying identifier. -/
theorem claim3_debounced_release_witness :
    (release sW3 "b" true).1.concurrency = sW3.concurrency
      ∧ "b" ∉ (release sW3 "b" true).1.flying := by
  have h := claim3_debounced_release sW3 "b" (by with_unfolding_all decide)
    (by with_unfolding_all decide)
  exact ⟨h.1.1, h.1.2.2.2⟩

/-- C5: every `release`, whatever adjustment branch ran, ends by promoting
exactly `min(|waiters|, max(0, concurrency - |flying|))` waiters (computed on
the adjusted state `s2`) from the front of the queue in FIFO order, adding
each to `flying` and firing its future. -/
theorem claim5_promotion (s2 : SawtoothState) (m : Int) (hm : s2.concurrency = (m : Rat))
    (s : SawtoothState) (request_id : String) (backpressure : Bool)
    (hadj : releaseAdjust s request_id backpressure = s2) :
    release s request_id backpressure =
      ({ s2 with
          waiters := s2.waiters.drop
            (min s2.waiters.length (max 0 (m - (s2.flying.card : Int))).toNat),
          flying := (s2.waiters.take
            (min s2.waiters.length (max 0 (m - (s2.flying.card : Int))).toNat)).foldl
            (fun t i => insert i t) s2.flying },
       s2.waiters.take (min s2.waiters.length (max 0 (m - (s2.flying.card : Int))).toNat)) := by
  have hfloor : ⌊max 0 (s2.concurrency - (s2.flying.card : Rat))⌋
      = max 0 (m - (s2.flying.card : Int)) := by
    rw [hm, show max (0 : Rat) ((m : Rat) - (s2.flying.card : Rat))
        = ((max 0 (m - (s2.flying.card : Int)) : Int) : Rat) by push_cast; rfl]
    exact Int.floor_intCast _
  have hnum : numToRelease s2
      = min s2.waiters.length (max 0 (m - (s2.flying.card : Int))).toNat := by
    unfold numToRelease
    rw [hfloor]
  rw [release, hadj, releaseWaiters_eq, hnum]

/-- Witness for C5: capacity 3 with one flying and three waiters admits the
first two waiters in order. -/
theorem claim5_promotion_witness :
    (release sW5 "z" false).2 = ["w1", "w2"]
      ∧ (release sW5 "z" false).1.waiters = ["w3"]
      ∧ (release sW5 "z" false).1.flying = {"a", "w1", "w2"} := by
  have h := claim5_promotion sW5 3 (by with_unfolding_all decide) sW5 "z" false
    (by with_unfolding_all decide)
  rw [h]
  refine ⟨?_, ?_, ?_⟩ <;> with_unfolding_all decide

/-- C6: `acquire` admits immediately into `flying` (waiters untouched) when
`|flying| < concurrency`, and otherwise appends the identifier to the back of
`waiters` and suspends (flying untouched). -/
theorem claim6_acquire_admission (s : SawtoothState) (request_id : String) :
    ((s.flying.card : Rat) < s.concurrency →
        acquire s request_id = ({ s with flying := insert request_id s.flying }, true))
      ∧ (s.concurrency ≤ (s.flying.card : Rat) →
        acquire s request_id = ({ s with waiters := s.waiters ++ [request_id] }, false)) := by
  constructor
  · intro hlt
    unfold acquire
    rw [if_neg (not_le.mpr hlt)]
  · intro hge
    unfold acquire
    rw [if_pos hge]

/-- Witness for C6: room available, caller admitted without queueing. -/
theorem claim6_acquire_admission_witness :
    acquire sW2 "c" = ({ sW2 with flying := insert "c" sW2.flying }, true) :=
  (claim6_acquire_admission sW2 "c").1 (by with_unfolding_all decide)

/-- C7: construction validates in source order — each invalid configuration
is rejected with its own distinct message (starting concurrency out of range;
non-positive minimum; minimum not below maximum; backoff outside (0,1)) —
and a valid configuration yields `concurrency = starting concurrency`,
`sshthresh = max_concurrency`, and empty `flying`/`ignored`/`waiters`. -/
theorem claim7_init_validation (cfg : SawtoothConfig) :
    (cfg.starting_concurrency = none →
        startingConcurrencyOf cfg
          = ⌊((cfg.max_concurrency : Rat) - (cfg.min_concurrency : Rat)) / 2⌋)
      ∧ ((startingConcurrencyOf cfg > cfg.max_concurrency
            ∨ startingConcurrencyOf cfg < cfg.min_concurrency) →
          sawtoothInit cfg = .error
            "Starting concurrency needs to be between minimum and maximum concurrency")
      ∧ (cfg.min_concurrency ≤ startingConcurrencyOf cfg →
          startingConcurrencyOf cfg ≤ cfg.max_concurrency →
          cfg.min_concurrency ≤ 0 →
          sawtoothInit cfg = .error "Minimum concurrency needs to be greater than 0")
      ∧ (cfg.min_concurrency ≤ startingConcurrencyOf cfg →
          startingConcurrencyOf cfg ≤ cfg.max_concurrency →
          0 < cfg.min_concurrency → cfg.max_concurrency ≤ cfg.min_concurrency →
          sawtoothInit cfg = .error
            "Minimum concurrency needs greater than maximum concurrency")
      ∧ (cfg.min_concurrency ≤ startingConcurrencyOf cfg →
          startingConcurrencyOf cfg ≤ cfg.max_concurrency →
          0 < cfg.min_concurrency → cfg.min_concurrency < cfg.max_concurrency →
          (1 ≤ cfg.backoff_factor ∨ cfg.backoff_factor ≤ 0) →
          sawtoothInit cfg = .error "Backoff must have a value between 0 and 1 (exclusive)")
      ∧ (cfg.min_concurrency ≤ startingConcurrencyOf cfg →
          startingConcurrencyOf cfg ≤ cfg.max_concurrency →
          0 < cfg.min_concurrency → cfg.min_concurrency < cfg.max_concurrency →
          0 < cfg.backoff_factor → cfg.backoff_factor < 1 →
          sawtoothInit cfg = .ok
            { config := cfg, flying := ∅, ignored := ∅,
              sshthresh := cfg.max_concurrency,
              concurrency := ((startingConcurrencyOf cfg : Int) : Rat), waiters := [] })
      ∧ ["Starting concurrency needs to be between minimum and maximum concurrency",
          "Minimum concurrency needs to be greater than 0",
          "Minimum concurrency needs greater than maximum concurrency",
          "Backoff must have a value between 0 and 1 (exclusive)"].Nodup := by
  refine ⟨?_, ?_, ?_, ?_, ?_, ?_, by decide⟩
  · intro hnone
    unfold startingConcurrencyOf
    rw [hnone]
  · intro h1
    unfold sawtoothInit
    rw [if_pos h1]
  · intro hlo hhi h2
    unfold sawtoothInit
    rw [if_neg (not_or.mpr ⟨not_lt.mpr hhi, not_lt.mpr hlo⟩), if_pos h2]
  · intro hlo hhi h2 h3
    unfold sawtoothInit
    rw [if_neg (not_or.mpr ⟨not_lt.mpr hhi, not_lt.mpr hlo⟩),
      if_neg (not_le.mpr h2), if_pos h3]
  · intro hlo hhi h2 h3 h4
    unfold sawtoothInit
    rw [if_neg (not_or.mpr ⟨not_lt.mpr hhi, not_lt.mpr hlo⟩),
      if_neg (not_le.mpr h2), if_neg (not_le.mpr h3), if_pos h4]
  · intro hlo hhi h2 h3 hb0 hb1
    unfold sawtoothInit
    rw [if_neg (not_or.mpr ⟨not_lt.mpr hhi, not_lt.mpr hlo⟩),
      if_neg (not_le.mpr h2), if_neg (not_le.mpr h3),
      if_neg (not_or.mpr ⟨not_le.mpr hb1, not_le.mpr hb0⟩)]

/-- Witness for C7: the valid configuration `cfgW` constructs successfully
with the documented initial state. -/
theorem claim7_init_validation_witness :
    sawtoothInit cfgW = .ok
      { config := cfgW, flying := ∅, ignored := ∅,
        sshthresh := cfgW.max_concurrency,
        concurrency := ((startingConcurrencyOf cfgW : Int) : Rat), waiters := [] } :=
  (claim7_init_validation cfgW).2.2.2.2.2.1 (by with_unfolding_all decide)
    (by with_unfolding_all decide) (by with_unfolding_all decide)
    (by with_unfolding_all decide) (by with_unfolding_all decide)
    (by with_unfolding_all decide)

/-- C8: the scoped guard releases exactly once with the same identifier it
acquired: with `backpressure := false` and no exception on normal exit, with
`backpressure := true` and the backpressure signal consumed when the scope
raised it, and with `backpressure := false` while the exception still
propagates for any other exception. -/
theorem claim8_scoped_guard (s : SawtoothState) (request_id : String)
    (outcome : ScopeOutcome) (hadm : (acquire s request_id).2 = true) :
    (outcome = ScopeOutcome.normal →
        resourceRun s request_id outcome
          = some ((release (acquire s request_id).1 request_id false).1,
              (release (acquire s request_id).1 request_id false).2, none))
      ∧ (outcome = ScopeOutcome.backpressure →
        resourceRun s request_id outcome
          = some ((release (acquire s request_id).1 request_id true).1,
              (release (acquire s request_id).1 request_id true).2, none))
      ∧ (∀ e : String, outcome = ScopeOutcome.raised e →
        resourceRun s request_id outcome
          = some ((release (acquire s request_id).1 request_id false).1,
              (release (acquire s request_id).1 request_id false).2, some e)) := by
  refine ⟨?_, ?_, ?_⟩
  · intro ho
    subst ho
    unfold resourceRun
    dsimp only
    rw [if_pos hadm]
  · intro ho
    subst ho
    unfold resourceRun
    dsimp only
    rw [if_pos hadm]
  · intro e ho
    subst ho
    unfold resourceRun
    dsimp only
    rw [if_pos hadm]

/-- Witness for C8: a backpressure exit at a state with free capacity. -/
theorem claim8_scoped_guard_witness :
    resourceRun sW2 "c" ScopeOutcome.backpressure
      = some ((release (acquire sW2 "c").1 "c" true).1,
          (release (acquire sW2 "c").1 "c" true).2, none) :=
  (claim8_scoped_guard sW2 "c" ScopeOutcome.backpressure
    (by with_unfolding_all decide)).2.1 rfl

end Sawtooth
